import Mathlib

/-!
Shallow embedding of the turn-orchestration core of `chat_backend.py`
(FastAPI `/chat` endpoint proxying a remote thread/run/tool-call service),
together with proofs of the specification claims about it.

Modelling conventions:
* Python machine floats are modelled as exact rationals (`ℚ`); Python ints as `ℤ`/`ℕ`.
* The remote service (`create_thread`, `add_message`, `submit_tool_outputs`) is an
  oracle: each operation is a function from its call index to either a result or a
  raised exception message, so theorems quantify over all remote behaviours.
* Python `re.search` over the concrete patterns in the source is implemented by a
  small backtracking engine (`Rgx`) with Python's leftmost-match, greedy,
  ordered-alternation semantics, including word boundaries (`\b`).
* `None`-able Python values are `Option`; Python string truthiness (`not s`) is
  the `= ""` test.
-/

set_option maxRecDepth 4000

/-! ### Character classes and string helpers (Python `\s`, `\d`, `\w`, `lower`, `strip`) -/

def wsChar (c : Char) : Bool :=
  c = ' ' || c = '\t' || c = '\n' || c = '\r' || c = '\x0b' || c = '\x0c'

def digitChar (c : Char) : Bool := '0' ≤ c && c ≤ '9'

def wordChar (c : Char) : Bool :=
  ('a' ≤ c && c ≤ 'z') || ('A' ≤ c && c ≤ 'Z') || digitChar c || c = '_'

def toLowerList (s : List Char) : List Char := s.map Char.toLower

def trimWs (s : List Char) : List Char :=
  ((s.dropWhile wsChar).reverse.dropWhile wsChar).reverse

def isPrefixB : List Char → List Char → Bool
  | [], _ => true
  | _ :: _, [] => false
  | c :: cs, d :: ds => c = d && isPrefixB cs ds

/-- Python `needle in hay` (substring containment). -/
def containsSub (needle : List Char) : List Char → Bool
  | [] => isPrefixB needle []
  | c :: rest => isPrefixB needle (c :: rest) || containsSub needle rest

def containsStr (needle hay : String) : Bool := containsSub needle.toList hay.toList

/-! ### A backtracking regex engine with Python `re` semantics

Only the constructs used by the patterns in `chat_backend.py` are supported:
literals, character classes, concatenation, ordered alternation, greedy `?`,
greedy `*` over a character class, one capture group, and word boundary. -/

inductive Rgx where
  | eps : Rgx
  | chr (c : Char) : Rgx
  | cls (p : Char → Bool) : Rgx
  | cat (a b : Rgx) : Rgx
  | alt (a b : Rgx) : Rgx
  | opt (a : Rgx) : Rgx
  | starCls (p : Char → Bool) : Rgx
  | grp (a : Rgx) : Rgx
  | bnd : Rgx

/-- Continuations take: previous character (for `\b`), remaining input, capture. -/
abbrev RgxK := Option Char → List Char → Option (List Char) → Option (Option (List Char))

/-- Greedy Kleene star over a character class: consume as much as possible,
backtracking one character at a time. -/
def starMatch (p : Char → Bool) (k : RgxK) :
    Option Char → List Char → Option (List Char) → Option (Option (List Char))
  | prev, [], cap => k prev [] cap
  | prev, c :: rest, cap =>
    if p c then
      match starMatch p k (some c) rest cap with
      | some r => some r
      | none => k prev (c :: rest) cap
    else k prev (c :: rest) cap

def Rgx.mtch : Rgx → Option Char → List Char → Option (List Char) → RgxK →
    Option (Option (List Char))
  | .eps, prev, s, cap, k => k prev s cap
  | .chr c, _, s, cap, k =>
    match s with
    | [] => none
    | d :: rest => if d = c then k (some d) rest cap else none
  | .cls p, _, s, cap, k =>
    match s with
    | [] => none
    | d :: rest => if p d then k (some d) rest cap else none
  | .cat a b, prev, s, cap, k => a.mtch prev s cap (fun p2 s2 c2 => b.mtch p2 s2 c2 k)
  | .alt a b, prev, s, cap, k =>
    match a.mtch prev s cap k with
    | some r => some r
    | none => b.mtch prev s cap k
  | .opt a, prev, s, cap, k =>
    match a.mtch prev s cap k with
    | some r => some r
    | none => k prev s cap
  | .starCls p, prev, s, cap, k => starMatch p k prev s cap
  | .grp a, prev, s, cap, k =>
    a.mtch prev s cap (fun p2 s2 _ => k p2 s2 (some (s.take (s.length - s2.length))))
  | .bnd, prev, s, cap, k =>
    let pw := match prev with | some c => wordChar c | none => false
    let nw := match s with | c :: _ => wordChar c | [] => false
    if pw ≠ nw then k prev s cap else none

/-- `re.search`: try each start position from the left. -/
def searchFrom (r : Rgx) : Option Char → List Char → Option (Option (List Char))
  | prev, s =>
    match r.mtch prev s none (fun _ _ cap => some cap) with
    | some cap => some cap
    | none =>
      match s with
      | [] => none
      | c :: rest => searchFrom r (some c) rest

def reSearch (r : Rgx) (s : List Char) : Option (Option (List Char)) := searchFrom r none s

def reFound (r : Rgx) (s : List Char) : Bool := (reSearch r s).isSome

/-- Group-1 capture of the leftmost match, when the pattern matched. -/
def reCapture (r : Rgx) (s : List Char) : Option (List Char) :=
  match reSearch r s with
  | some cap => some (cap.getD [])
  | none => none

/-! ### The concrete patterns of `chat_backend.py` -/

def litR : List Char → Rgx
  | [] => .eps
  | c :: cs => .cat (.chr c) (litR cs)

def litS (s : String) : Rgx := litR s.toList

def wsStar : Rgx := .starCls wsChar
def wsPlus : Rgx := .cat (.cls wsChar) wsStar
def digPlus : Rgx := .cat (.cls digitChar) (.starCls digitChar)

/-- `(?:of|to|at|=|slider\s+to|:)` — the connector alternation in `_try_local_action`. -/
def connLocal : Rgx :=
  .alt (litS "of") (.alt (litS "to") (.alt (litS "at") (.alt (litS "=")
    (.alt (.cat (litS "slider") (.cat wsPlus (litS "to"))) (litS ":")))))

/-- `(?:of|to|at|=|:)` — the connector alternation in the post-loop augmenter. -/
def connAug : Rgx :=
  .alt (litS "of") (.alt (litS "to") (.alt (litS "at") (.alt (litS "=") (litS ":"))))

/-- `(\d+(?:\.\d+)?)` -/
def covNum : Rgx := .grp (.cat digPlus (.opt (.cat (.chr '.') digPlus)))

/-- `(?:area\s+)?coverage\s*CONN?\s*(\d+(?:\.\d+)?)\s*%?` -/
def covRe (conn : Rgx) : Rgx :=
  .cat (.opt (.cat (litS "area") wsPlus))
    (.cat (litS "coverage")
      (.cat wsStar
        (.cat (.opt conn)
          (.cat wsStar
            (.cat covNum
              (.cat wsStar (.opt (.chr '%'))))))))

def covReLocal : Rgx := covRe connLocal
def covReAug : Rgx := covRe connAug

/-- `(?:min(?:imum)?\s+)?buildings?\s*(?:per\s+cell)?\s*CONN?\s*(\d+)` -/
def bldRe (conn : Rgx) : Rgx :=
  .cat (.opt (.cat (litS "min") (.cat (.opt (litS "imum")) wsPlus)))
    (.cat (litS "building")
      (.cat (.opt (.chr 's'))
        (.cat wsStar
          (.cat (.opt (.cat (litS "per") (.cat wsPlus (litS "cell"))))
            (.cat wsStar
              (.cat (.opt conn)
                (.cat wsStar (.grp digPlus))))))))

def bldReLocal : Rgx := bldRe connLocal
def bldReAug : Rgx := bldRe connAug

/-- `.` in Python `re` matches anything but a newline. -/
def dotStar : Rgx := .starCls (fun c => c ≠ '\n')

/-- `\bbuilding\s*points?\b` -/
def pointsRe : Rgx :=
  .cat .bnd (.cat (litS "building") (.cat wsStar (.cat (litS "point") (.cat (.opt (.chr 's')) .bnd))))

def verbAlt (a b c d : String) : Rgx := .alt (litS a) (.alt (litS b) (.alt (litS c) (litS d)))

/-- `\b(show|display|turn on|enable)\b.*\bbuilding\s*points?\b` -/
def showRe : Rgx :=
  .cat .bnd (.cat (.grp (verbAlt "show" "display" "turn on" "enable"))
    (.cat .bnd (.cat dotStar pointsRe)))

/-- `\b(hide|remove|turn off|disable)\b.*\bbuilding\s*points?\b` -/
def hideRe : Rgx :=
  .cat .bnd (.cat (.grp (verbAlt "hide" "remove" "turn off" "disable"))
    (.cat .bnd (.cat dotStar pointsRe)))

def covCaptureLocal (msg : List Char) : Option (List Char) := reCapture covReLocal msg
def bldCaptureLocal (msg : List Char) : Option (List Char) := reCapture bldReLocal msg
def covCaptureAug (msg : List Char) : Option (List Char) := reCapture covReAug msg
def bldCaptureAug (msg : List Char) : Option (List Char) := reCapture bldReAug msg

/-! ### Numeric parsing and clamping -/

def digitsToNat (s : List Char) : ℕ := s.foldl (fun n c => n * 10 + (c.toNat - 48)) 0

/-- Python `float()` on a `\d+(\.\d+)?` capture, as an exact rational. -/
def parseDec (s : List Char) : ℚ :=
  let ip := s.takeWhile (fun c => c ≠ '.')
  match s.dropWhile (fun c => c ≠ '.') with
  | [] => (digitsToNat ip : ℚ)
  | _ :: fp => (digitsToNat ip : ℚ) + (digitsToNat fp : ℚ) / ((10 : ℚ) ^ fp.length)

/-- `max(0.1, min(60.0, val))` -/
def clampCov (v : ℚ) : ℚ := max (1/10) (min 60 v)

/-- `max(0, min(50, val))` -/
def clampBld (v : ℤ) : ℤ := max 0 (min 50 v)

/-! ### Data model (`pydantic` request/response models of `chat_backend.py`) -/

structure MapState where
  settlement : String := ""
  size_eligible_only : Bool := false
  building_type : String := ""
  storey_tier : String := ""
  min_coverage : ℚ := 1/10
  min_buildings : ℤ := 0
  show_buildings : Bool := false
deriving DecidableEq, Repr

structure ChatRequest where
  message : String
  thread_id : Option String := none
  map_state : MapState := {}
deriving DecidableEq, Repr

structure ChatAction where
  type : String
  settlement : Option String := none
  visible : Option Bool := none
  size_eligible_only : Option Bool := none
  building_type : Option String := none
  storey_tier : Option String := none
  min_coverage : Option ℚ := none
  min_buildings : Option ℤ := none
deriving DecidableEq, Repr

structure ChatResponse where
  message : String
  thread_id : String
  actions : List ChatAction := []
deriving DecidableEq, Repr

/-- The remote service's turn result (`add_message` / `submit_tool_outputs` return).
A `None` tool-call list and an empty one are both falsy in the source, so both are `[]`. -/
structure ToolArgs where
  settlement : Option String := none
  visible : Option Bool := none
  size_eligible_only : Option Bool := none
  building_type : Option String := none
  storey_tier : Option String := none
  min_coverage : Option ℚ := none
  min_buildings : Option ℤ := none
deriving DecidableEq, Repr

structure ToolCall where
  id : String
  name : String
  args : ToolArgs
deriving DecidableEq, Repr

structure TurnResult where
  status : String
  content : Option String := none
  tool_calls : List ToolCall := []
  run_id : String := ""
deriving DecidableEq, Repr

/-! ### Local action handler (`_try_local_action`) -/

def knownMapTools : List String :=
  ["highlight_settlement", "zoom_to_settlement", "apply_filters", "show_building_points"]

structure LocalRes where
  message : String
  actions : List ChatAction
deriving DecidableEq, Repr

def qRepr (v : ℚ) : String := toString v

def covLocalAct (v : ℚ) : ChatAction := { type := "apply_filters", min_coverage := some v }
def bldLocalAct (v : ℤ) : ChatAction := { type := "apply_filters", min_buildings := some v }
def showPtsAct (b : Bool) : ChatAction := { type := "show_building_points", visible := some b }

/-- `" ".join(parts)` -/
def joinSp : List String → String
  | [] => ""
  | [p] => p
  | p :: q :: rest => p ++ " " ++ joinSp (q :: rest)

def tryLocalAction (message : String) (_ms : MapState) : Option LocalRes :=
  let msg := trimWs (toLowerList message.toList)
  let covPart : List (ChatAction × String) :=
    match covCaptureLocal msg with
    | some c =>
      let v := clampCov (parseDec c)
      [(covLocalAct v, "Minimum area coverage set to **" ++ qRepr v ++ "%**.")]
    | none => []
  let bldPart : List (ChatAction × String) :=
    match bldCaptureLocal msg with
    | some c =>
      let v := clampBld (digitsToNat c)
      [(bldLocalAct v, "Minimum buildings per cell set to **" ++ toString v ++ "**.")]
    | none => []
  let showPart : List (ChatAction × String) :=
    if reFound showRe msg then
      [(showPtsAct true, "Building points layer is now **visible**.")]
    else if reFound hideRe msg then
      [(showPtsAct false, "Building points layer is now **hidden**.")]
    else []
  match covPart ++ bldPart ++ showPart with
  | [] => none
  | all => some { message := joinSp (all.map Prod.snd), actions := all.map Prod.fst }

/-! ### Enriched prompt construction -/

def joinComma : List String → String
  | [] => ""
  | [p] => p
  | p :: q :: rest => p ++ ", " ++ joinComma (q :: rest)

def toolHints : String :=
  "[TOOL RULES: 1. ALWAYS call search_documents FIRST for any grant, eligibility, or policy question — prefer RAG info over general knowledge. 2. To show eligible buildings, call BOTH show_building_points(visible=true) AND apply_filters(size_eligible_only=true). 3. To show buildings of a specific type, call show_building_points AND apply_filters with the type. 4. To adjust the area coverage slider, call apply_filters(min_coverage=<value>) with a value from 0.1 to 60. 5. To adjust the min buildings per cell slider, call apply_filters(min_buildings=<value>) with an integer from 0 to 50. 6. Be LIBERAL with tool calls — if your answer mentions a settlement, highlight and zoom to it. If your answer discusses filters, apply them. Call multiple tools in a single response. 7. Always call apply_filters when the user asks about filtering, eligibility, sliders, coverage, density, or building criteria.]"

def ctxParts (ms : MapState) : List String :=
  (if ms.settlement ≠ "" then ["selected_settlement=" ++ ms.settlement] else [])
  ++ (if ms.size_eligible_only then ["size_eligible_filter=ON"] else [])
  ++ (if ms.building_type ≠ "" then ["building_type_filter=" ++ ms.building_type] else [])
  ++ (if ms.storey_tier ≠ "" then ["storey_tier_filter=" ++ ms.storey_tier] else [])
  ++ ["min_coverage=" ++ qRepr ms.min_coverage, "min_buildings=" ++ toString ms.min_buildings]
  ++ (if ms.show_buildings then ["building_points=visible"] else [])

def buildEnriched (req : ChatRequest) : String :=
  let parts := ctxParts req.map_state
  let mapCtx := if parts ≠ [] then "[Current map state: " ++ joinComma parts ++ "]\n" else ""
  mapCtx ++ toolHints ++ "\n\n" ++ req.message

def retryAugment : String :=
  "[IMPORTANT: Do NOT call search_documents. Answer using your system prompt knowledge only. Use only these tools: highlight_settlement, zoom_to_settlement, apply_filters, show_building_points.]\n\n"

/-! ### The remote service as an oracle, and per-turn instrumentation

Each remote operation is a function from its call index (how many calls to that
operation this turn already made) to either a result or a raised exception
message; this over-approximates every possible remote behaviour. -/

structure Env where
  creates : ℕ → Except String String
  adds : ℕ → Except String TurnResult
  submits : ℕ → Except String TurnResult

structure Config where
  assistantId : String
  apiKey : Option String
deriving DecidableEq, Repr

inductive ChatErr where
  | http (code : ℕ) (detail : String)
  | runtime (msg : String)
  | uncaught (msg : String)
deriving DecidableEq, Repr

/-- Mutable per-turn state of the handler: current thread id, plus ghost
instrumentation (created handles, call counts, contents sent to `add_message`). -/
structure St where
  threadId : String
  created : List String := []
  cc : ℕ := 0
  ac : ℕ := 0
  sc : ℕ := 0
  sent : List String := []
deriving DecidableEq, Repr

instance {ε α : Type} [DecidableEq ε] [DecidableEq α] : DecidableEq (Except ε α) := fun x y =>
  match x, y with
  | .ok a, .ok b => decidable_of_iff (a = b) (by simp)
  | .error a, .error b => decidable_of_iff (a = b) (by simp)
  | .ok _, .error _ => .isFalse (fun h => Except.noConfusion h)
  | .error _, .ok _ => .isFalse (fun h => Except.noConfusion h)

/-- Outcome of one turn: the endpoint's result plus ghost observations. -/
structure Trace where
  result : Except ChatErr ChatResponse
  createdThreads : List String := []
  createCalls : ℕ := 0
  addCalls : ℕ := 0
  submitCalls : ℕ := 0
  sentMessages : List String := []
  submitExnExit : Bool := false
  preFinal : List ChatAction := []
deriving DecidableEq, Repr

/-- `client.create_thread(ASSISTANT_ID)`: on success the current thread id is
replaced and the new handle recorded. -/
def stCreate (env : Env) (st : St) : St × Except String String :=
  match env.creates st.cc with
  | .ok t => ({ st with cc := st.cc + 1, threadId := t, created := st.created ++ [t] }, .ok t)
  | .error e => ({ st with cc := st.cc + 1 }, .error e)

/-- `client.add_message(thread_id=..., content=...)`. -/
def stAdd (env : Env) (st : St) (content : String) : St × Except String TurnResult :=
  ({ st with ac := st.ac + 1, sent := st.sent ++ [content] }, env.adds st.ac)

/-- `client.submit_tool_outputs(...)`. -/
def stSubmit (env : Env) (st : St) : St × Except String TurnResult :=
  ({ st with sc := st.sc + 1 }, env.submits st.sc)

def errTrace (st : St) (e : ChatErr) : Trace :=
  { result := .error e, createdThreads := st.created, createCalls := st.cc,
    addCalls := st.ac, submitCalls := st.sc, sentMessages := st.sent }

/-- `req.thread_id or ""` (Python falsy coalescing). -/
def pyOr (o : Option String) : String := o.getD ""

def isCorruptedErr (e : String) : Bool :=
  containsStr "tool_call_id" e || containsStr "tool_calls" e || containsStr "Invalid parameter" e

/-! ### Post-loop action augmentation and deduplication -/

def broadenKeywords : List String :=
  ["ineligible", "all buildings", "show all", "include ineligible", "as well",
   "both eligible and", "eligible and ineligible"]

def eligibilityKeywords : List String :=
  ["eligible", "grant", "qualify", "qualifying", "eligib", "size_eligible"]

def wantsShowAll (msgLower : List Char) : Bool :=
  broadenKeywords.any (fun kw => containsSub kw.toList msgLower)

def mentionsEligibility (msgLower : List Char) : Bool :=
  eligibilityKeywords.any (fun kw => containsSub kw.toList msgLower)

def wantsEligOnly (msgLower : List Char) : Bool :=
  mentionsEligibility msgLower && !(containsSub "ineligible".toList msgLower)

def anyCov (l : List ChatAction) : Bool := l.any (fun a => a.min_coverage.isSome)
def anyBld (l : List ChatAction) : Bool := l.any (fun a => a.min_buildings.isSome)
def hasShowB (l : List ChatAction) : Bool := l.any (fun a => a.type = "show_building_points")
def hasFiltB (l : List ChatAction) : Bool := l.any (fun a => a.type = "apply_filters")

def actAllFalse : ChatAction := { type := "apply_filters", size_eligible_only := some false }
def actEligTrue : ChatAction := { type := "apply_filters", size_eligible_only := some true }

/-- The deterministic injections of lines 385–419: slider values re-parsed from the
raw utterance, plus the broaden/eligibility filter logic. All gating predicates are
computed from the pre-injection action list, exactly as in the source (where
`action_types`, `has_*` and `llm_set_*` are computed before any `append`). -/
def injected (msgLower : List Char) (acts : List ChatAction) : List ChatAction :=
  (match covCaptureAug msgLower with
   | some c => if anyCov acts then [] else [covLocalAct (clampCov (parseDec c))]
   | none => [])
  ++ (match bldCaptureAug msgLower with
   | some c => if anyBld acts then [] else [bldLocalAct (clampBld (digitsToNat c))]
   | none => [])
  ++ (if wantsShowAll msgLower then [actAllFalse]
      else if hasShowB acts && !hasFiltB acts && wantsEligOnly msgLower then [actEligTrue]
      else [])

def augmentActions (msgLower : List Char) (acts : List ChatAction) : List ChatAction :=
  acts ++ injected msgLower acts

/-- Lines 421–429: keep the first occurrence of each structurally-equal action. -/
def dedupeGo (seen : List ChatAction) : List ChatAction → List ChatAction
  | [] => []
  | a :: rest => if a ∈ seen then dedupeGo seen rest else a :: dedupeGo (a :: seen) rest

def dedupeActions (l : List ChatAction) : List ChatAction := dedupeGo [] l

/-! ### Message finalization (lines 431–446) -/

def errMarkers : List String :=
  ["LLM API Error", "LLM Error", "tool_call_id", "Invalid parameter", "Error code:"]

def appliedMsg : String := "I've applied the requested actions to the map."
def failRetryMsg : String :=
  "I'm sorry, I'm having trouble processing your request right now. Please try again."
def finalApology : String :=
  "I'm sorry, I encountered an issue processing your request. Please try again."

def strTrim (s : String) : String := String.mk (trimWs s.toList)

def finalizeMessage (content : Option String) (acts : List ChatAction) : String :=
  let fm0 := content.getD ""
  let fm := if errMarkers.any (fun m => containsStr m fm0) then "" else fm0
  if acts ≠ [] ∧ strTrim fm = "" then appliedMsg
  else if strTrim fm = "" then finalApology
  else fm

/-! ### The tool-call round loop (lines 297–374) -/

/-- `ChatAction(type=func_name, **args)` -/
def mkAction (tc : ToolCall) : ChatAction :=
  { type := tc.name, settlement := tc.args.settlement, visible := tc.args.visible,
    size_eligible_only := tc.args.size_eligible_only, building_type := tc.args.building_type,
    storey_tier := tc.args.storey_tier, min_coverage := tc.args.min_coverage,
    min_buildings := tc.args.min_buildings }

/-- Only known client-facing map tools become actions; every call is acknowledged. -/
def collectKnown (tcs : List ToolCall) : List ChatAction :=
  tcs.filterMap (fun tc => if knownMapTools.contains tc.name then some (mkAction tc) else none)

inductive LoopOut where
  | early (st : St) (acts : List ChatAction)
  | done (st : St) (resp : TurnResult) (acts : List ChatAction)
deriving DecidableEq, Repr

/-- The `while response.tool_calls and tool_round < MAX_TOOL_ROUNDS` loop, with
`fuel = MAX_TOOL_ROUNDS - tool_round`; entered with fuel 5.
`early` is the `return` on a `submit_tool_outputs` exception (lines 343–355). -/
def toolLoopF (env : Env) (st : St) (resp : TurnResult) (acts : List ChatAction) :
    ℕ → LoopOut
  | 0 => .done st resp acts
  | fuel + 1 =>
    if resp.tool_calls = [] then .done st resp acts
    else if resp.status ≠ "" ∧ resp.status ≠ "REQUIRES_ACTION" ∧
        resp.status ≠ "requires_action" then .done st resp acts
    else
      let acts1 := acts ++ collectKnown resp.tool_calls
      match stSubmit env st with
      | (st1, .error _) =>
        let (st2, _) := stCreate env st1
        .early st2 acts1
      | (st1, .ok r2) =>
        if r2.status = "FAILED" then
          let (st2, _) := stCreate env st1
          .done st2 r2 acts1
        else toolLoopF env st1 r2 acts1 fuel

/-! ### Failure recovery and finalization (lines 261–295 and 376–452) -/

/-- The `while response.status == 'FAILED' and failed_attempts < MAX_FAILED_RETRIES`
loop (lines 263–287), with `fuel = MAX_FAILED_RETRIES - failed_attempts` (entered
with fuel 2): on each attempt, replace the thread and resend the enriched prompt
prefixed with the tool-restriction instruction; any exception breaks out. -/
def failedRetry (env : Env) (enriched : String) (st : St) (resp : TurnResult) :
    ℕ → St × TurnResult
  | 0 => (st, resp)
  | fuel + 1 =>
    if resp.status = "FAILED" then
      match stCreate env st with
      | (st1, .error _) => (st1, resp)
      | (st1, .ok _) =>
        match stAdd env st1 (retryAugment ++ enriched) with
        | (st2, .error _) => (st2, resp)
        | (st2, .ok r2) => failedRetry env enriched st2 r2 fuel
    else (st, resp)

/-- Lines 376–452: augmentation, deduplication, message finalization, response. -/
def finalizeTrace (req : ChatRequest) (st : St) (resp : TurnResult)
    (acts : List ChatAction) : Trace :=
  let msgLower := toLowerList req.message.toList
  let aug := augmentActions msgLower acts
  let deduped := dedupeActions aug
  let msg := finalizeMessage resp.content deduped
  { result := .ok { message := msg, thread_id := st.threadId, actions := deduped },
    createdThreads := st.created, createCalls := st.cc, addCalls := st.ac,
    submitCalls := st.sc, sentMessages := st.sent, submitExnExit := false,
    preFinal := aug }

/-- Everything after the first successful `add_message`: the FAILED-retry loop,
the FAILED fallback, the tool-call round loop, and finalization. -/
def phasePostAdd (env : Env) (req : ChatRequest) (enriched : String) (st : St)
    (resp : TurnResult) : Trace :=
  let (st1, resp1) := failedRetry env enriched st resp 2
  if resp1.status = "FAILED" then
    { result := .ok { message := failRetryMsg, thread_id := st1.threadId, actions := [] },
      createdThreads := st1.created, createCalls := st1.cc, addCalls := st1.ac,
      submitCalls := st1.sc, sentMessages := st1.sent }
  else
    match toolLoopF env st1 resp1 [] 5 with
    | .early st2 acts =>
      { result := .ok { message := appliedMsg, thread_id := st2.threadId, actions := acts },
        createdThreads := st2.created, createCalls := st2.cc, addCalls := st2.ac,
        submitCalls := st2.sc, sentMessages := st2.sent, submitExnExit := true,
        preFinal := acts }
    | .done st2 resp2 acts => finalizeTrace req st2 resp2 acts

/-- The initial `add_message` with corrupted-thread recovery (lines 220–250). -/
def phaseAdd (env : Env) (req : ChatRequest) (enriched : String) (st : St) : Trace :=
  match stAdd env st enriched with
  | (st1, .ok resp) => phasePostAdd env req enriched st1 resp
  | (st1, .error e) =>
    if isCorruptedErr e then
      match stCreate env st1 with
      | (st2, .error e2) => errTrace st2 (.uncaught e2)
      | (st2, .ok _) =>
        match stAdd env st2 enriched with
        | (st3, .error e3) => errTrace st3 (.uncaught e3)
        | (st3, .ok resp) => phasePostAdd env req enriched st3 resp
    else errTrace st1 (.http 502 ("LLM API error: " ++ e))

/-- The remote path of `chat` (everything from line 175 on). -/
def chatRemote (env : Env) (req : ChatRequest) : Trace :=
  let enriched := buildEnriched req
  let st0 : St := { threadId := pyOr req.thread_id }
  if pyOr req.thread_id = "" then
    match stCreate env st0 with
    | (st1, .error e) => errTrace st1 (.uncaught e)
    | (st1, .ok _) => phaseAdd env req enriched st1
  else phaseAdd env req enriched st0

def detail500 : String := "BACKBOARD_ASSISTANT_ID not set. Run setup_assistant.py first."
def keyErrMsg : String := "BACKBOARD_IO_API_KEY not set in .env"

/-- The `/chat` endpoint (lines 156–452): assistant-id check, client construction,
local shortcut, then the remote path. -/
def chat (cfg : Config) (env : Env) (req : ChatRequest) : Trace :=
  if cfg.assistantId = "" then
    { result := .error (.http 500 detail500) }
  else if pyOr cfg.apiKey = "" then
    { result := .error (.runtime keyErrMsg) }
  else
    match tryLocalAction req.message req.map_state with
    | some loc =>
      { result := .ok { message := loc.message, thread_id := pyOr req.thread_id,
                        actions := loc.actions },
        preFinal := loc.actions }
    | none => chatRemote env req

/-! ### Lemmas about deduplication -/

theorem dedupeGo_mem {a : ChatAction} :
    ∀ (l seen : List ChatAction), a ∈ dedupeGo seen l ↔ a ∈ l ∧ a ∉ seen := by
  intro l
  induction l with
  | nil => intro seen; simp [dedupeGo]
  | cons b l ih =>
    intro seen
    by_cases hb : b ∈ seen
    · rw [dedupeGo, if_pos hb, ih]
      constructor
      · rintro ⟨hl, hs⟩; exact ⟨List.mem_cons_of_mem _ hl, hs⟩
      · rintro ⟨hl, hs⟩
        rcases List.mem_cons.mp hl with h | h
        · exact absurd (h ▸ hb) hs
        · exact ⟨h, hs⟩
    · rw [dedupeGo, if_neg hb]
      constructor
      · intro h
        rcases List.mem_cons.mp h with h | h
        · exact ⟨h ▸ List.mem_cons_self b l, h ▸ hb⟩
        · rcases (ih _).mp h with ⟨hl, hs⟩
          refine ⟨List.mem_cons_of_mem _ hl, fun hc => hs (List.mem_cons_of_mem _ hc)⟩
      · rintro ⟨hl, hs⟩
        by_cases hab : a = b
        · exact hab ▸ List.mem_cons_self b _
        · rcases List.mem_cons.mp hl with h | h
          · exact absurd h hab
          · exact List.mem_cons_of_mem _ ((ih _).mpr ⟨h, by
              intro hc
              rcases List.mem_cons.mp hc with h2 | h2
              · exact hab h2
              · exact hs h2⟩)

theorem dedupeActions_mem {a : ChatAction} {l : List ChatAction} :
    a ∈ dedupeActions l ↔ a ∈ l := by
  rw [dedupeActions, dedupeGo_mem]; simp

theorem dedupeGo_sublist : ∀ (l seen : List ChatAction), (dedupeGo seen l).Sublist l := by
  intro l
  induction l with
  | nil => intro seen; simp [dedupeGo]
  | cons b l ih =>
    intro seen
    rw [dedupeGo]
    split
    · exact (ih seen).cons b
    · exact (ih (b :: seen)).cons₂ b

theorem dedupeGo_pairwise : ∀ (l seen : List ChatAction), (dedupeGo seen l).Pairwise (· ≠ ·) := by
  intro l
  induction l with
  | nil => intro seen; simp [dedupeGo]
  | cons b l ih =>
    intro seen
    rw [dedupeGo]
    split
    · exact ih seen
    · refine List.Pairwise.cons ?_ (ih (b :: seen))
      intro a ha
      rcases (dedupeGo_mem _ _).mp ha with ⟨_, hs⟩
      intro hc
      exact hs (hc ▸ List.mem_cons_self b seen)

theorem dedupeGo_append_last (x : ChatAction) :
    ∀ (l seen : List ChatAction), (x ∈ seen ∨ x ∈ l) →
      dedupeGo seen (l ++ [x]) = dedupeGo seen l := by
  intro l
  induction l with
  | nil =>
    intro seen h
    rcases h with h | h
    · simp [dedupeGo, h]
    · simp at h
  | cons b l ih =>
    intro seen h
    by_cases hb : b ∈ seen
    · rw [List.cons_append, dedupeGo, if_pos hb, dedupeGo, if_pos hb]
      refine ih seen ?_
      rcases h with h | h
      · exact .inl h
      · rcases List.mem_cons.mp h with h2 | h2
        · exact .inl (h2 ▸ hb)
        · exact .inr h2
    · rw [List.cons_append, dedupeGo, if_neg hb, dedupeGo, if_neg hb]
      congr 1
      refine ih (b :: seen) ?_
      rcases h with h | h
      · exact .inl (List.mem_cons_of_mem _ h)
      · rcases List.mem_cons.mp h with h2 | h2
        · exact .inl (h2 ▸ List.mem_cons_self b seen)
        · exact .inr h2

theorem dedupeGo_idem : ∀ (l seen : List ChatAction),
    dedupeGo seen (dedupeGo seen l) = dedupeGo seen l := by
  intro l
  induction l with
  | nil => intro seen; simp [dedupeGo]
  | cons b l ih =>
    intro seen
    by_cases hb : b ∈ seen
    · have h1 : dedupeGo seen (b :: l) = dedupeGo seen l := by rw [dedupeGo, if_pos hb]
      rw [h1]; exact ih seen
    · have h1 : dedupeGo seen (b :: l) = b :: dedupeGo (b :: seen) l := by
        rw [dedupeGo, if_neg hb]
      rw [h1, dedupeGo, if_neg hb, ih (b :: seen)]

theorem dedupeActions_idem (l : List ChatAction) :
    dedupeActions (dedupeActions l) = dedupeActions l := dedupeGo_idem l []

theorem dedupeActions_append_last {x : ChatAction} {l : List ChatAction} (h : x ∈ l) :
    dedupeActions (l ++ [x]) = dedupeActions l := dedupeGo_append_last x l [] (.inr h)

/-- Transfer of `any` predicates across deduplication. -/
theorem any_dedupeActions (p : ChatAction → Bool) (l : List ChatAction) :
    (dedupeActions l).any p = l.any p := by
  cases h : l.any p with
  | true =>
    rcases List.any_eq_true.mp h with ⟨a, ha, hp⟩
    exact List.any_eq_true.mpr ⟨a, dedupeActions_mem.mpr ha, hp⟩
  | false =>
    rw [List.any_eq_false] at *
    intro a ha
    exact h a (dedupeActions_mem.mp ha)

/-! ### Witness fixtures: a benign remote environment and configuration -/

def envW : Env :=
  { creates := fun n => .ok ("T" ++ toString n),
    adds := fun _ => .ok { status := "COMPLETED", content := some "ok" },
    submits := fun _ => .ok { status := "COMPLETED", content := some "ok" } }

def cfgW : Config := { assistantId := "asst", apiKey := some "key" }

/-! ### Claim C10 -/

/-- Claim C10: even for a turn the local intent resolver would resolve without any
remote call, `chat` fails when configuration is missing — HTTP 500 when the
assistant id is unset, a runtime error when the API key is unset — because those
checks run before the local shortcut. -/
theorem claim_C10_config_before_local (cfg : Config) (env : Env) (req : ChatRequest)
    (_hloc : (tryLocalAction req.message req.map_state).isSome = true) :
    (cfg.assistantId = "" → (chat cfg env req).result = .error (.http 500 detail500)) ∧
    (cfg.assistantId ≠ "" → cfg.apiKey = none →
      (chat cfg env req).result = .error (.runtime keyErrMsg)) := by
  constructor
  · intro h
    simp [chat, h]
  · intro h hk
    simp [chat, h, hk, pyOr]

/-- Witness for C10 at the locally-resolvable message `"set coverage to 25%"`. -/
theorem claim_C10_config_before_local_witness :
    (tryLocalAction "set coverage to 25%" {}).isSome = true ∧
    (chat { assistantId := "", apiKey := some "k" } envW
      { message := "set coverage to 25%" }).result = .error (.http 500 detail500) ∧
    (chat { assistantId := "asst", apiKey := none } envW
      { message := "set coverage to 25%" }).result = .error (.runtime keyErrMsg) := by
  have h1 := claim_C10_config_before_local { assistantId := "", apiKey := some "k" } envW
    { message := "set coverage to 25%" } (by decide)
  have h2 := claim_C10_config_before_local { assistantId := "asst", apiKey := none } envW
    { message := "set coverage to 25%" } (by decide)
  exact ⟨by decide, h1.1 rfl, h2.2 (by decide) rfl⟩

/-! ### Claim C6 -/

/-- The cov/bld slider injections never set the eligibility flag. -/
theorem injected_sliders_no_elig (m : List Char) (acts : List ChatAction) :
    ∀ a, (a ∈ (match covCaptureAug m with
        | some c => if anyCov acts then [] else [covLocalAct (clampCov (parseDec c))]
        | none => []) ∨
      a ∈ (match bldCaptureAug m with
        | some c => if anyBld acts then [] else [bldLocalAct (clampBld (digitsToNat c))]
        | none => [])) → a.size_eligible_only = none := by
  intro a ha
  rcases ha with ha | ha
  · revert ha
    rcases covCaptureAug m with _ | c
    · simp
    · split <;> simp [covLocalAct]
      intro _ heq; rw [heq]
  · revert ha
    rcases bldCaptureAug m with _ | c
    · simp
    · split <;> simp [bldLocalAct]
      intro _ heq; rw [heq]

/-- Claim C6: whenever the (lower-cased) utterance contains a broaden keyword and an
eligibility keyword, the Action Augmenter appends `apply_filters` with
`size_eligible_only = false` and never appends one with `size_eligible_only = true`. -/
theorem claim_C6_broaden_wins (msgLower : List Char) (acts : List ChatAction)
    (hb : wantsShowAll msgLower = true) (_he : mentionsEligibility msgLower = true) :
    actAllFalse ∈ injected msgLower acts ∧
      ∀ a ∈ injected msgLower acts, a.size_eligible_only ≠ some true := by
  unfold injected
  rw [hb]
  constructor
  · simp
  · intro a ha
    simp only [if_true, List.append_assoc, List.mem_append] at ha
    rcases ha with ha | ha | ha
    · rw [injected_sliders_no_elig msgLower acts a (.inl ha)]; simp
    · rw [injected_sliders_no_elig msgLower acts a (.inr ha)]; simp
    · simp only [List.mem_singleton] at ha
      subst ha
      simp [actAllFalse]

/-- Witness for C6: the utterance from the specification scenario. -/
theorem claim_C6_broaden_wins_witness :
    wantsShowAll (toLowerList "show me eligible buildings, including ineligible ones too".toList) = true ∧
    actAllFalse ∈ injected
      (toLowerList "show me eligible buildings, including ineligible ones too".toList) [] ∧
    ∀ a ∈ injected
      (toLowerList "show me eligible buildings, including ineligible ones too".toList) [],
      a.size_eligible_only ≠ some true := by
  have h := claim_C6_broaden_wins
    (toLowerList "show me eligible buildings, including ineligible ones too".toList) []
    (by decide) (by decide)
  exact ⟨by decide, h.1, h.2⟩

/-! ### Claim C1 -/

/-- When the coverage pattern matches the lower-cased, stripped message, the local
handler fires and its first action is the clamped coverage filter. -/
theorem tryLocalAction_cov {message : String} {ms : MapState} {c : List Char}
    (hc : covCaptureLocal (trimWs (toLowerList message.toList)) = some c) :
    ∃ loc, tryLocalAction message ms = some loc ∧
      loc.actions.head? = some (covLocalAct (clampCov (parseDec c))) := by
  unfold tryLocalAction
  simp only [hc]
  exact ⟨_, rfl, by simp⟩

/-- Claim C1: for every turn request whose lower-cased message matches the numeric
coverage pattern (and with the configuration present, which is checked first), the
local intent resolver short-circuits the turn: the response's first action is
`apply_filters` with `min_coverage` equal to the parsed number clamped to
`[0.1, 60.0]`, no remote call is made, and the inbound thread handle is passed
through unchanged (empty string when absent). -/
theorem claim_C1_local_coverage_short_circuit (cfg : Config) (env : Env) (req : ChatRequest)
    (c : List Char) (ha : cfg.assistantId ≠ "") (hk : pyOr cfg.apiKey ≠ "")
    (hc : covCaptureLocal (trimWs (toLowerList req.message.toList)) = some c) :
    ∃ resp, (chat cfg env req).result = .ok resp ∧
      resp.actions.head? = some (covLocalAct (clampCov (parseDec c))) ∧
      resp.thread_id = pyOr req.thread_id ∧
      (chat cfg env req).createCalls = 0 ∧ (chat cfg env req).addCalls = 0 ∧
      (chat cfg env req).submitCalls = 0 := by
  rcases @tryLocalAction_cov req.message req.map_state c hc with ⟨loc, hloc, hhead⟩
  unfold chat
  rw [if_neg ha, if_neg hk, hloc]
  exact ⟨_, rfl, hhead, rfl, rfl, rfl, rfl⟩

/-- Witness for C1 at the specification's scenario `"set coverage to 25%"`. -/
theorem claim_C1_local_coverage_short_circuit_witness :
    covCaptureLocal (trimWs (toLowerList "set coverage to 25%".toList)) = some ['2', '5'] ∧
    ∃ resp,
      (chat cfgW envW { message := "set coverage to 25%", thread_id := some "TH" }).result =
        .ok resp ∧
      resp.actions.head? = some (covLocalAct (clampCov (parseDec ['2', '5']))) ∧
      resp.thread_id = pyOr (some "TH") ∧
      (chat cfgW envW { message := "set coverage to 25%", thread_id := some "TH" }).createCalls = 0 ∧
      (chat cfgW envW { message := "set coverage to 25%", thread_id := some "TH" }).addCalls = 0 ∧
      (chat cfgW envW { message := "set coverage to 25%", thread_id := some "TH" }).submitCalls = 0 := by
  refine ⟨by decide, ?_⟩
  exact claim_C1_local_coverage_short_circuit cfgW envW
    { message := "set coverage to 25%", thread_id := some "TH" } ['2', '5']
    (by decide) (by decide) (by decide)

/-! ### Claim C4 -/

def loopSt : LoopOut → St
  | .early st _ => st
  | .done st _ _ => st

/-- Each round makes at most one tool-output submission. -/
theorem toolLoopF_sc (env : Env) :
    ∀ (fuel : ℕ) (st : St) (resp : TurnResult) (acts : List ChatAction),
      (loopSt (toolLoopF env st resp acts fuel)).sc ≤ st.sc + fuel := by
  intro fuel
  induction fuel with
  | zero => intro st resp acts; simp [toolLoopF, loopSt]
  | succ fuel ih =>
    intro st resp acts
    rw [toolLoopF]
    split
    · simp [loopSt]
    · split
      · simp [loopSt]
      · simp only [stSubmit]
        rcases henv : env.submits st.sc with e | r2
        · simp only [henv, stCreate]
          rcases hc2 : env.creates st.cc with e2 | t <;> simp [hc2, loopSt]
        · simp only [henv]
          split
          · simp only [stCreate]
            rcases hc2 : env.creates st.cc with e2 | t <;> simp [hc2, loopSt]
          · refine le_trans (ih _ _ _) ?_
            simp
            omega

theorem failedRetry_sc (env : Env) (enriched : String) :
    ∀ (fuel : ℕ) (st : St) (resp : TurnResult),
      (failedRetry env enriched st resp fuel).1.sc = st.sc := by
  intro fuel
  induction fuel with
  | zero => intro st resp; rfl
  | succ fuel ih =>
    intro st resp
    rw [failedRetry]
    split
    · simp only [stCreate]
      rcases hc : env.creates st.cc with e | t
      · simp [hc]
      · simp only [hc, stAdd]
        rcases ha : env.adds (st.ac) with e2 | r2 <;> simp [ha, ih]
    · rfl

theorem phasePostAdd_sc (env : Env) (req : ChatRequest) (enriched : String) (st : St)
    (resp : TurnResult) : (phasePostAdd env req enriched st resp).submitCalls ≤ st.sc + 5 := by
  unfold phasePostAdd
  rcases hfr : failedRetry env enriched st resp 2 with ⟨st1, resp1⟩
  have h1 : st1.sc = st.sc := by
    have h := failedRetry_sc env enriched 2 st resp
    rw [hfr] at h
    exact h
  try dsimp only
  split
  · simp
    omega
  · rcases hlo : toolLoopF env st1 resp1 [] 5 with ⟨st2, acts⟩ | ⟨st2, resp2, acts⟩ <;>
      have h2 := toolLoopF_sc env 5 st1 resp1 [] <;>
      rw [hlo] at h2 <;>
      simp only [loopSt] at h2 <;>
      simp only [finalizeTrace] <;>
      simp <;>
      omega

theorem phaseAdd_sc (env : Env) (req : ChatRequest) (enriched : String) (st : St) :
    (phaseAdd env req enriched st).submitCalls ≤ st.sc + 5 := by
  unfold phaseAdd
  simp only [stAdd]
  rcases ha : env.adds st.ac with e | r
  · simp only [ha]
    try dsimp only
    split
    · simp only [stCreate]
      try dsimp only
      rcases hc : env.creates st.cc with e2 | t
      · simp [hc, errTrace]
      · simp only [hc]
        try dsimp only
        rcases ha2 : env.adds (st.ac + 1) with e3 | r2
        · simp [ha2, errTrace]
        · simp only [ha2]
          try dsimp only
          exact phasePostAdd_sc env req enriched _ r2
    · simp [errTrace]
  · simp only [ha]
    try dsimp only
    exact phasePostAdd_sc env req enriched _ r

/-- Claim C4: the tool-call round loop performs at most 5 tool-output submissions
per turn, and exhausting the round budget stops submitting and hands the actions
collected so far to finalization; `chat` is a total function, so every turn
terminates. -/
theorem claim_C4_round_budget (cfg : Config) (env : Env) (req : ChatRequest) :
    (chat cfg env req).submitCalls ≤ 5 ∧
    ∀ (st : St) (resp : TurnResult) (acts : List ChatAction),
      toolLoopF env st resp acts 0 = .done st resp acts := by
  refine ⟨?_, fun st resp acts => rfl⟩
  unfold chat
  split
  · simp
  · split
    · simp
    · split
      · simp
      · unfold chatRemote
        try dsimp only
        split
        · simp only [stCreate]
          try dsimp only
          rcases hc : env.creates 0 with e | t
          · simp [hc, errTrace]
          · simp only [hc]
            try dsimp only
            exact phaseAdd_sc env req (buildEnriched req) _
        · exact phaseAdd_sc env req (buildEnriched req) _

/-! ### Claim C5 -/

def tcDup : ToolCall := { id := "t1", name := "apply_filters", args := { min_coverage := some 5 } }

def actDup : ChatAction := mkAction tcDup

def envC5 : Env :=
  { creates := fun _ => .ok "TZ",
    adds := fun _ => .ok { status := "REQUIRES_ACTION", tool_calls := [tcDup, tcDup] },
    submits := fun _ => .error "boom" }

def reqC5 : ChatRequest := { message := "hello", thread_id := some "TH" }

/-- Counterexample to claim C5 as stated: when the remote agent issues the same
known tool call twice in round 1 and `submit_tool_outputs` then raises, the turn
returns early (lines 343–355) with the collected action list as-is — the returned
list contains two structurally equal actions, so not every returned action list is
deduplicated. -/
theorem claim_C5_counterexample :
    (chat cfgW envC5 reqC5).result =
      .ok { message := appliedMsg, thread_id := "TZ", actions := [actDup, actDup] } ∧
    ¬ ([actDup, actDup].Pairwise (fun a b => a ≠ b)) := by
  constructor
  · decide
  · intro h
    exact (List.pairwise_cons.mp h).1 actDup (List.mem_cons_self _ _) rfl

/-- The local handler's action list is always duplicate-free: its three possible
contributions have pairwise-distinct shapes. -/
theorem tryLocalAction_pairwise (message : String) (ms : MapState) (loc : LocalRes)
    (h : tryLocalAction message ms = some loc) : loc.actions.Pairwise (· ≠ ·) := by
  simp only [tryLocalAction] at h
  rcases hcov : covCaptureLocal (trimWs (toLowerList message.toList)) with _ | c <;>
    rcases hbld : bldCaptureLocal (trimWs (toLowerList message.toList)) with _ | d <;>
    simp only [hcov, hbld] at h <;>
    (try split at h) <;>
    (try split at h) <;>
    simp only [List.nil_append, List.append_nil, List.cons_append, List.singleton_append,
      Option.some.injEq, reduceCtorEq] at h <;>
    (try subst h) <;>
    (try split) <;>
    simp [covLocalAct, bldLocalAct, showPtsAct]

/-- On every path except the early submit-exception return, an `ok` turn's action
list is deduplicated relative to the pre-dedup list recorded in the trace. -/
def dedupOk (t : Trace) : Prop :=
  ∀ resp, t.result = .ok resp → t.submitExnExit = false →
    resp.actions.Pairwise (· ≠ ·) ∧ resp.actions.Sublist t.preFinal ∧
    ∀ a ∈ t.preFinal, a ∈ resp.actions

theorem errTrace_dedupOk (st : St) (e : ChatErr) : dedupOk (errTrace st e) := by
  intro resp h
  simp [errTrace] at h

theorem finalizeTrace_dedupOk (req : ChatRequest) (st : St) (resp : TurnResult)
    (acts : List ChatAction) : dedupOk (finalizeTrace req st resp acts) := by
  intro r hr _
  simp only [finalizeTrace, Except.ok.injEq] at hr
  subst hr
  exact ⟨dedupeGo_pairwise _ _, dedupeGo_sublist _ _, fun a ha => dedupeActions_mem.mpr ha⟩

theorem phasePostAdd_dedupOk (env : Env) (req : ChatRequest) (enriched : String) (st : St)
    (resp : TurnResult) : dedupOk (phasePostAdd env req enriched st resp) := by
  unfold phasePostAdd
  rcases hfr : failedRetry env enriched st resp 2 with ⟨st1, resp1⟩
  try dsimp only
  split
  · intro r hr _
    simp only [Except.ok.injEq] at hr
    subst hr
    simp
  · rcases hlo : toolLoopF env st1 resp1 [] 5 with ⟨st2, acts⟩ | ⟨st2, resp2, acts⟩ <;>
      simp only [hlo]
    · intro r _ hexn
      simp at hexn
    · exact finalizeTrace_dedupOk req st2 resp2 acts

theorem phaseAdd_dedupOk (env : Env) (req : ChatRequest) (enriched : String) (st : St) :
    dedupOk (phaseAdd env req enriched st) := by
  unfold phaseAdd
  simp only [stAdd]
  rcases ha : env.adds st.ac with e | r
  · simp only [ha]
    try dsimp only
    split
    · simp only [stCreate]
      try dsimp only
      rcases hc : env.creates st.cc with e2 | t
      · simp only [hc]
        try dsimp only
        exact errTrace_dedupOk _ _
      · simp only [hc]
        try dsimp only
        rcases ha2 : env.adds (st.ac + 1) with e3 | r2
        · simp only [ha2]
          try dsimp only
          exact errTrace_dedupOk _ _
        · simp only [ha2]
          try dsimp only
          exact phasePostAdd_dedupOk env req enriched _ r2
    · exact errTrace_dedupOk _ _
  · simp only [ha]
    try dsimp only
    exact phasePostAdd_dedupOk env req enriched _ r

/-- Claim C5, amended: on every path that returns a Turn Response except the
mid-loop tool-output-submission-failure early return (which surfaces the collected
actions as-is), the action list is deduplicated — no two returned actions are
structurally equal, the returned list is a subsequence of the pre-dedup list
(original order preserved), and every pre-dedup action still occurs (first
occurrences are kept). -/
theorem claim_C5_amended_dedup (cfg : Config) (env : Env) (req : ChatRequest)
    (resp : ChatResponse) (hok : (chat cfg env req).result = .ok resp)
    (hexn : (chat cfg env req).submitExnExit = false) :
    resp.actions.Pairwise (· ≠ ·) ∧
    resp.actions.Sublist ((chat cfg env req).preFinal) ∧
    ∀ a ∈ (chat cfg env req).preFinal, a ∈ resp.actions := by
  have hd : dedupOk (chat cfg env req) := by
    unfold chat
    split
    · intro r hr
      simp at hr
    · split
      · intro r hr
        simp at hr
      · split
        · next loc hloc =>
          intro r hr _
          simp only [Except.ok.injEq] at hr
          subst hr
          exact ⟨tryLocalAction_pairwise _ req.map_state loc hloc, List.Sublist.refl _,
            fun a ha => ha⟩
        · unfold chatRemote
          try dsimp only
          split
          · simp only [stCreate]
            try dsimp only
            rcases hc : env.creates 0 with e | t
            · simp only [hc]
              try dsimp only
              exact errTrace_dedupOk _ _
            · simp only [hc]
              try dsimp only
              exact phaseAdd_dedupOk env req _ _
          · exact phaseAdd_dedupOk env req _ _
  exact hd resp hok hexn

/-- Witness for the amended C5 on a normal finalization path. -/
theorem claim_C5_amended_dedup_witness :
    (chat cfgW envW reqC5).result = .ok { message := "ok", thread_id := "TH", actions := [] } ∧
    (chat cfgW envW reqC5).submitExnExit = false ∧
    (([] : List ChatAction).Pairwise (· ≠ ·) ∧
     ([] : List ChatAction).Sublist ((chat cfgW envW reqC5).preFinal) ∧
     ∀ a ∈ (chat cfgW envW reqC5).preFinal,
       a ∈ ({ message := "ok", thread_id := "TH", actions := [] } : ChatResponse).actions) :=
  ⟨by decide, by decide,
    claim_C5_amended_dedup cfgW envW reqC5 { message := "ok", thread_id := "TH", actions := [] }
      (by decide) (by decide)⟩

/-! ### Claim C2 -/

theorem failedRetry_notFailed (env : Env) (e : String) (st : St) (resp : TurnResult)
    (fuel : ℕ) (h : ¬ resp.status = "FAILED") : failedRetry env e st resp fuel = (st, resp) := by
  cases fuel with
  | zero => rfl
  | succ fuel => rw [failedRetry, if_neg h]

/-- If the round-1 submission comes back FAILED, the turn finalizes at once with the
round-1 actions: exactly one submission was made and every collected known tool
call's action reaches the final (deduplicated, augmented) response. -/
theorem phasePostAdd_round1_fail (env : Env) (req : ChatRequest) (enriched : String)
    (st : St) (r0 r1 : TurnResult) (tc : ToolCall)
    (hst : r0.status = "REQUIRES_ACTION")
    (htc : tc ∈ r0.tool_calls) (hknown : knownMapTools.contains tc.name = true)
    (hsub : env.submits st.sc = .ok r1) (hfail : r1.status = "FAILED") :
    ∃ resp, (phasePostAdd env req enriched st r0).result = .ok resp ∧
      mkAction tc ∈ resp.actions ∧
      (phasePostAdd env req enriched st r0).submitCalls = st.sc + 1 := by
  have hne : ¬ r0.status = "FAILED" := by rw [hst]; decide
  have hmem : mkAction tc ∈ collectKnown r0.tool_calls :=
    List.mem_filterMap.mpr ⟨tc, htc, by rw [hknown]; rfl⟩
  unfold phasePostAdd
  rw [failedRetry_notFailed env enriched st r0 2 hne]
  try dsimp only
  rw [if_neg hne]
  rw [show (5 : ℕ) = 4 + 1 from rfl, toolLoopF]
  rw [if_neg (List.ne_nil_of_mem htc)]
  rw [if_neg (by rw [hst]; decide)]
  simp only [stSubmit]
  try dsimp only
  rw [hsub]
  try dsimp only
  rw [if_pos hfail]
  simp only [stCreate]
  try dsimp only
  rcases hc : env.creates st.cc with e2 | t <;>
    simp only [hc] <;>
    try dsimp only
  all_goals
    exact ⟨_, rfl, dedupeActions_mem.mpr (List.mem_append_left _ hmem), rfl⟩

/-- Claim C2: if the remote result turns FAILED after known map tool calls were
collected in round 1, the turn finalizes immediately with a response that still
contains every such collected action, and no further tool-output submission is
made (exactly one submission happened). -/
theorem claim_C2_midloop_failure_keeps_actions (cfg : Config) (env : Env)
    (req : ChatRequest) (r0 r1 : TurnResult) (tc : ToolCall)
    (ha : cfg.assistantId ≠ "") (hk : pyOr cfg.apiKey ≠ "")
    (hlocal : tryLocalAction req.message req.map_state = none)
    (hinb : ¬ pyOr req.thread_id = "")
    (hadd : env.adds 0 = .ok r0)
    (hst : r0.status = "REQUIRES_ACTION")
    (htc : tc ∈ r0.tool_calls)
    (hknown : knownMapTools.contains tc.name = true)
    (hsub : env.submits 0 = .ok r1)
    (hfail : r1.status = "FAILED") :
    ∃ resp, (chat cfg env req).result = .ok resp ∧ mkAction tc ∈ resp.actions ∧
      (chat cfg env req).submitCalls = 1 := by
  unfold chat
  rw [if_neg ha, if_neg hk]
  simp only [hlocal]
  unfold chatRemote
  try dsimp only
  rw [if_neg hinb]
  unfold phaseAdd
  simp only [stAdd]
  try dsimp only
  rw [hadd]
  try dsimp only
  exact phasePostAdd_round1_fail env req (buildEnriched req) _ r0 r1 tc hst htc hknown hsub hfail

def envC2 : Env :=
  { creates := fun _ => .ok "TN",
    adds := fun _ => .ok { status := "REQUIRES_ACTION", tool_calls := [tcDup] },
    submits := fun _ => .ok { status := "FAILED" } }

/-- Witness for C2: one `apply_filters` call collected in round 1, then FAILED. -/
theorem claim_C2_midloop_failure_keeps_actions_witness :
    ∃ resp, (chat cfgW envC2 reqC5).result = .ok resp ∧ mkAction tcDup ∈ resp.actions ∧
      (chat cfgW envC2 reqC5).submitCalls = 1 :=
  claim_C2_midloop_failure_keeps_actions cfgW envC2 reqC5
    { status := "REQUIRES_ACTION", tool_calls := [tcDup] } { status := "FAILED" } tcDup
    (by decide) (by decide) (by decide) (by decide) (by decide) (by decide)
    (by decide) (by decide) (by decide) (by decide)

/-! ### Claim C3 -/

theorem failedRetry_step (env : Env) (e : String) (st : St) (resp : TurnResult) (fuel : ℕ)
    (hfuel : fuel ≠ 0) (h : resp.status = "FAILED") :
    failedRetry env e st resp fuel =
      (match stCreate env st with
       | (st1, .error _) => (st1, resp)
       | (st1, .ok _) =>
         match stAdd env st1 (retryAugment ++ e) with
         | (st2, .error _) => (st2, resp)
         | (st2, .ok r2) => failedRetry env e st2 r2 (fuel - 1)) := by
  cases fuel with
  | zero => exact absurd rfl hfuel
  | succ n =>
    rw [failedRetry, if_pos h]
    simp only [Nat.add_sub_cancel]

/-- Claim C3: a FAILED initial turn is retried at most twice, each retry on a
brand-new session with the enriched prompt prefixed by the instruction to avoid
`search_documents` and use only the four known client-facing tools; when the status
is still FAILED after both retries, the response is the fixed apologetic fallback
with an empty action list (and the last created handle). -/
theorem claim_C3_failed_retry_exhaustion (cfg : Config) (env : Env) (req : ChatRequest)
    (r0 rA rB : TurnResult) (t1 t2 : String)
    (ha : cfg.assistantId ≠ "") (hk : pyOr cfg.apiKey ≠ "")
    (hlocal : tryLocalAction req.message req.map_state = none)
    (hinb : ¬ pyOr req.thread_id = "")
    (hadd0 : env.adds 0 = .ok r0) (hf0 : r0.status = "FAILED")
    (hc0 : env.creates 0 = .ok t1)
    (hadd1 : env.adds 1 = .ok rA) (hfA : rA.status = "FAILED")
    (hc1 : env.creates 1 = .ok t2)
    (hadd2 : env.adds 2 = .ok rB) (hfB : rB.status = "FAILED") :
    (chat cfg env req).result =
      .ok { message := failRetryMsg, thread_id := t2, actions := [] } ∧
    (chat cfg env req).addCalls = 3 ∧
    (chat cfg env req).sentMessages =
      [buildEnriched req, retryAugment ++ buildEnriched req,
       retryAugment ++ buildEnriched req] := by
  unfold chat
  rw [if_neg ha, if_neg hk]
  simp only [hlocal]
  unfold chatRemote
  try dsimp only
  rw [if_neg hinb]
  unfold phaseAdd
  simp only [stAdd]
  try dsimp only
  rw [hadd0]
  try dsimp only
  unfold phasePostAdd
  rw [failedRetry_step env (buildEnriched req) _ r0 2 (by decide) hf0]
  simp only [stCreate]
  try dsimp only
  rw [hc0]
  try dsimp only
  simp only [stAdd]
  try dsimp only
  simp only [Nat.reduceAdd]
  rw [hadd1]
  try dsimp only
  simp only [Nat.reduceSub]
  rw [failedRetry_step env (buildEnriched req) _ rA 1 (by decide) hfA]
  simp only [stCreate]
  try dsimp only
  simp only [Nat.reduceAdd]
  rw [hc1]
  try dsimp only
  simp only [stAdd]
  try dsimp only
  simp only [Nat.reduceAdd]
  rw [hadd2]
  try dsimp only
  simp only [Nat.reduceSub]
  rw [failedRetry]
  try dsimp only
  rw [if_pos hfB]
  exact ⟨rfl, rfl, rfl⟩

def envC3 : Env :=
  { creates := fun _ => .ok "TR",
    adds := fun _ => .ok { status := "FAILED" },
    submits := fun _ => .error "x" }

/-- Witness for C3: every add fails, both retries made, fallback returned. -/
theorem claim_C3_failed_retry_exhaustion_witness :
    (chat cfgW envC3 reqC5).result =
      .ok { message := failRetryMsg, thread_id := "TR", actions := [] } ∧
    (chat cfgW envC3 reqC5).addCalls = 3 ∧
    (chat cfgW envC3 reqC5).sentMessages =
      [buildEnriched reqC5, retryAugment ++ buildEnriched reqC5,
       retryAugment ++ buildEnriched reqC5] :=
  claim_C3_failed_retry_exhaustion cfgW envC3 reqC5
    { status := "FAILED" } { status := "FAILED" } { status := "FAILED" } "TR" "TR"
    (by decide) (by decide) (by decide) (by decide) (by decide) (by decide)
    (by decide) (by decide) (by decide) (by decide) (by decide) (by decide)

/-! ### Claim C9 -/

def envC9 : Env :=
  { creates := fun n => .ok ("T" ++ toString n),
    adds := fun n => if n = 0 then .error "bad tool_call_id state"
      else .ok { status := "COMPLETED", content := some "hi" },
    submits := fun _ => .error "x" }

def reqC9 : ChatRequest := { message := "hey", thread_id := none }

/-- Counterexample to claim C9 as stated: when the first thread turns out corrupted
and is replaced, two handles are created during the turn ("T0" then "T1"), but the
final response carries only the replacement "T1" — the earlier created handle "T0"
is not included in the response, so not every created handle is surfaced. -/
theorem claim_C9_counterexample :
    (chat cfgW envC9 reqC9).createdThreads = ["T0", "T1"] ∧
    (chat cfgW envC9 reqC9).result = .ok { message := "hi", thread_id := "T1", actions := [] } ∧
    "T0" ∈ (chat cfgW envC9 reqC9).createdThreads ∧ ("T1" : String) ≠ "T0" :=
  ⟨by decide, by decide, by decide, by decide⟩

/-- Invariant: the handler's current thread id is the most recently created handle,
or the inbound one when no handle has been created yet. -/
def lastCreated (inb : String) (st : St) : Prop :=
  (st.created = [] ∧ st.threadId = inb) ∨ st.created.getLast? = some st.threadId

theorem getLast?_concat_eq (l : List String) (t : String) : (l ++ [t]).getLast? = some t := by
  rw [List.getLast?_append_cons]
  rfl

theorem stCreate_lastCreated (env : Env) (st : St) (inb : String) (h : lastCreated inb st) :
    lastCreated inb (stCreate env st).1 := by
  simp only [stCreate]
  rcases hc : env.creates st.cc with e | t <;> simp only [hc]
  · exact h
  · exact .inr (getLast?_concat_eq _ _)

theorem failedRetry_lastCreated (env : Env) (e : String) (inb : String) :
    ∀ (fuel : ℕ) (st : St) (resp : TurnResult), lastCreated inb st →
      lastCreated inb (failedRetry env e st resp fuel).1 := by
  intro fuel
  induction fuel with
  | zero => intro st resp h; exact h
  | succ fuel ih =>
    intro st resp h
    rw [failedRetry]
    split
    · simp only [stCreate]
      rcases hc : env.creates st.cc with e2 | t <;> simp only [hc] <;> try dsimp only
      · exact h
      · simp only [stAdd]
        try dsimp only
        rcases ha : env.adds st.ac with e3 | r2 <;> simp only [ha] <;> try dsimp only
        · exact .inr (getLast?_concat_eq _ _)
        · exact ih _ r2 (.inr (getLast?_concat_eq _ _))
    · exact h

theorem toolLoopF_lastCreated (env : Env) (inb : String) :
    ∀ (fuel : ℕ) (st : St) (resp : TurnResult) (acts : List ChatAction), lastCreated inb st →
      lastCreated inb (loopSt (toolLoopF env st resp acts fuel)) := by
  intro fuel
  induction fuel with
  | zero => intro st resp acts h; exact h
  | succ fuel ih =>
    intro st resp acts h
    rw [toolLoopF]
    split
    · exact h
    · split
      · exact h
      · simp only [stSubmit]
        try dsimp only
        rcases hs : env.submits st.sc with e | r2 <;> simp only [hs] <;> try dsimp only
        · simp only [stCreate]
          rcases hc : env.creates st.cc with e2 | t <;> simp only [hc] <;> try dsimp only
          · exact h
          · exact .inr (getLast?_concat_eq _ _)
        · split
          · simp only [stCreate]
            rcases hc : env.creates st.cc with e2 | t <;> simp only [hc] <;> try dsimp only
            · exact h
            · exact .inr (getLast?_concat_eq _ _)
          · exact ih _ r2 _ h

/-- The handle-surfacing contract of one trace. -/
def handleOk (inb : String) (t : Trace) : Prop :=
  ∀ resp, t.result = .ok resp →
    t.createdThreads.getLast? = some resp.thread_id ∨
    (t.createdThreads = [] ∧ resp.thread_id = inb)

theorem lastCreated_handle (inb : String) (st : St) (h : lastCreated inb st)
    (resp : ChatResponse) (hth : resp.thread_id = st.threadId) :
    st.created.getLast? = some resp.thread_id ∨ (st.created = [] ∧ resp.thread_id = inb) := by
  rcases h with ⟨h1, h2⟩ | h1
  · exact .inr ⟨h1, hth.trans h2⟩
  · exact .inl (hth ▸ h1)

theorem phasePostAdd_handleOk (env : Env) (req : ChatRequest) (enriched : String)
    (st : St) (resp : TurnResult) (inb : String) (h : lastCreated inb st) :
    handleOk inb (phasePostAdd env req enriched st resp) := by
  unfold phasePostAdd
  rcases hfr : failedRetry env enriched st resp 2 with ⟨st1, resp1⟩
  have h1 : lastCreated inb st1 := by
    have hh := failedRetry_lastCreated env enriched inb 2 st resp h
    rw [hfr] at hh
    exact hh
  try dsimp only
  split
  · intro r hr
    simp only [Except.ok.injEq] at hr
    subst hr
    exact lastCreated_handle inb st1 h1 _ rfl
  · rcases hlo : toolLoopF env st1 resp1 [] 5 with ⟨st2, acts⟩ | ⟨st2, resp2, acts⟩ <;>
      simp only [hlo] <;>
      have h2 := toolLoopF_lastCreated env inb 5 st1 resp1 [] h1 <;>
      rw [hlo] at h2 <;>
      simp only [loopSt] at h2
    · intro r hr
      simp only [Except.ok.injEq] at hr
      subst hr
      exact lastCreated_handle inb st2 h2 _ rfl
    · intro r hr
      simp only [finalizeTrace, Except.ok.injEq] at hr
      subst hr
      exact lastCreated_handle inb st2 h2 _ rfl

theorem phaseAdd_handleOk (env : Env) (req : ChatRequest) (enriched : String) (st : St)
    (inb : String) (h : lastCreated inb st) : handleOk inb (phaseAdd env req enriched st) := by
  unfold phaseAdd
  simp only [stAdd]
  rcases ha : env.adds st.ac with e | r
  · simp only [ha]
    try dsimp only
    split
    · simp only [stCreate]
      try dsimp only
      rcases hc : env.creates st.cc with e2 | t <;> simp only [hc] <;> try dsimp only
      · intro r hr
        simp [errTrace] at hr
      · rcases ha2 : env.adds (st.ac + 1) with e3 | r2 <;> simp only [stAdd, ha2] <;>
          try dsimp only
        · intro r hr
          simp [errTrace] at hr
        · exact phasePostAdd_handleOk env req enriched _ r2 inb
            (.inr (getLast?_concat_eq _ _))
    · intro r hr
      simp [errTrace] at hr
  · simp only [ha]
    try dsimp only
    exact phasePostAdd_handleOk env req enriched _ r inb h

/-- Claim C9, amended: every turn that returns a Turn Response surfaces the most
recently created session handle (so the caller can persist it for the next turn);
when no handle was created during the turn, the inbound handle is passed through.
Handles created earlier in the same turn and then replaced are not included. -/
theorem claim_C9_amended_last_handle (cfg : Config) (env : Env) (req : ChatRequest)
    (resp : ChatResponse) (hok : (chat cfg env req).result = .ok resp) :
    (chat cfg env req).createdThreads.getLast? = some resp.thread_id ∨
    ((chat cfg env req).createdThreads = [] ∧ resp.thread_id = pyOr req.thread_id) := by
  have hmain : handleOk (pyOr req.thread_id) (chat cfg env req) := by
    unfold chat
    split
    · intro r hr
      simp at hr
    · split
      · intro r hr
        simp at hr
      · split
        · intro r hr
          simp only [Except.ok.injEq] at hr
          subst hr
          exact .inr ⟨rfl, rfl⟩
        · unfold chatRemote
          try dsimp only
          split
          · simp only [stCreate]
            try dsimp only
            rcases hc : env.creates 0 with e | t <;> simp only [hc] <;> try dsimp only
            · intro r hr
              simp [errTrace] at hr
            · exact phaseAdd_handleOk env req _ _ _ (.inr (getLast?_concat_eq _ _))
          · exact phaseAdd_handleOk env req _ _ _ (.inl ⟨rfl, rfl⟩)
  exact hmain resp hok

/-- Witness for the amended C9: corrupted first thread, handle replaced, the last
created handle "T1" is surfaced. -/
theorem claim_C9_amended_last_handle_witness :
    (chat cfgW envC9 reqC9).result = .ok { message := "hi", thread_id := "T1", actions := [] } ∧
    ((chat cfgW envC9 reqC9).createdThreads.getLast? =
        some ({ message := "hi", thread_id := "T1", actions := [] } : ChatResponse).thread_id ∨
      ((chat cfgW envC9 reqC9).createdThreads = [] ∧
        ({ message := "hi", thread_id := "T1", actions := [] } : ChatResponse).thread_id =
          pyOr reqC9.thread_id)) :=
  ⟨by decide,
    claim_C9_amended_last_handle cfgW envC9 reqC9
      { message := "hi", thread_id := "T1", actions := [] } (by decide)⟩

/-! ### Claim C8 -/

theorem string_ne_empty_of_data_ne (s : String) (h : s.data ≠ []) : s ≠ "" := by
  intro hc
  subst hc
  exact h rfl

theorem append_ne_empty_left (a b : String) (h : a ≠ "") : a ++ b ≠ "" := by
  refine string_ne_empty_of_data_ne _ ?_
  rw [String.data_append]
  intro hc
  exact h (by
    have := (List.append_eq_nil.mp hc).1
    cases a
    simp only [String.data] at this
    rw [this])

theorem joinSp_ne_empty (p : String) (rest : List String) (h : p ≠ "") :
    joinSp (p :: rest) ≠ "" := by
  cases rest with
  | nil => exact h
  | cons q rest =>
    rw [joinSp]
    exact append_ne_empty_left _ _ (append_ne_empty_left _ _ h)

/-- The local handler never returns an empty message: each matched pattern
contributes a non-empty fragment and at least one pattern matched. -/
theorem tryLocalAction_msg_ne (message : String) (ms : MapState) (loc : LocalRes)
    (h : tryLocalAction message ms = some loc) : loc.message ≠ "" := by
  simp only [tryLocalAction] at h
  rcases hcov : covCaptureLocal (trimWs (toLowerList message.toList)) with _ | c <;>
    rcases hbld : bldCaptureLocal (trimWs (toLowerList message.toList)) with _ | d <;>
    simp only [hcov, hbld] at h <;>
    (try split at h) <;>
    (try split at h) <;>
    simp only [List.nil_append, List.append_nil, List.cons_append, List.singleton_append,
      Option.some.injEq, reduceCtorEq] at h <;>
    (try subst h) <;>
    (try split) <;>
    simp only [List.map_cons, List.map_nil] <;>
    first
      | exact joinSp_ne_empty _ _ (append_ne_empty_left _ _ (append_ne_empty_left _ _ (by decide)))
      | exact joinSp_ne_empty _ _ (by decide)
      | simp_all

theorem strTrim_empty : strTrim "" = "" := rfl

theorem finalizeMessage_ne (content : Option String) (acts : List ChatAction) :
    finalizeMessage content acts ≠ "" := by
  simp only [finalizeMessage]
  split
  · split
    · exact (by decide : appliedMsg ≠ "")
    · split
      · exact (by decide : finalApology ≠ "")
      · next h3 => exact absurd strTrim_empty h3
  · split
    · exact (by decide : appliedMsg ≠ "")
    · split
      · exact (by decide : finalApology ≠ "")
      · next h3 =>
        intro hc
        refine absurd ?_ h3
        rw [hc]
        rfl

/-- Every `ok` result of a trace carries a non-empty message. -/
def msgOk (t : Trace) : Prop := ∀ resp, t.result = .ok resp → resp.message ≠ ""

theorem errTrace_msgOk (st : St) (e : ChatErr) : msgOk (errTrace st e) := by
  intro r hr
  simp [errTrace] at hr

theorem finalizeTrace_msgOk (req : ChatRequest) (st : St) (resp : TurnResult)
    (acts : List ChatAction) : msgOk (finalizeTrace req st resp acts) := by
  intro r hr
  simp only [finalizeTrace, Except.ok.injEq] at hr
  subst hr
  exact finalizeMessage_ne _ _

theorem phasePostAdd_msgOk (env : Env) (req : ChatRequest) (enriched : String) (st : St)
    (resp : TurnResult) : msgOk (phasePostAdd env req enriched st resp) := by
  unfold phasePostAdd
  rcases hfr : failedRetry env enriched st resp 2 with ⟨st1, resp1⟩
  try dsimp only
  split
  · intro r hr
    simp only [Except.ok.injEq] at hr
    subst hr
    exact (by decide : failRetryMsg ≠ "")
  · rcases hlo : toolLoopF env st1 resp1 [] 5 with ⟨st2, acts⟩ | ⟨st2, resp2, acts⟩ <;>
      simp only [hlo]
    · intro r hr
      simp only [Except.ok.injEq] at hr
      subst hr
      exact (by decide : appliedMsg ≠ "")
    · exact finalizeTrace_msgOk req st2 resp2 acts

theorem phaseAdd_msgOk (env : Env) (req : ChatRequest) (enriched : String) (st : St) :
    msgOk (phaseAdd env req enriched st) := by
  unfold phaseAdd
  simp only [stAdd]
  rcases ha : env.adds st.ac with e | r
  · simp only [ha]
    try dsimp only
    split
    · simp only [stCreate]
      try dsimp only
      rcases hc : env.creates st.cc with e2 | t <;> simp only [hc] <;> try dsimp only
      · exact errTrace_msgOk _ _
      · rcases ha2 : env.adds (st.ac + 1) with e3 | r2 <;> simp only [stAdd, ha2] <;>
          try dsimp only
        · exact errTrace_msgOk _ _
        · exact phasePostAdd_msgOk env req enriched _ r2
    · exact errTrace_msgOk _ _
  · simp only [ha]
    try dsimp only
    exact phasePostAdd_msgOk env req enriched _ r

/-- Claim C8: every returned Turn Response has a non-empty message; and whenever the
remote content contains a known error marker, finalization discards it and
substitutes the fixed confirmation message when actions exist, or the fixed
apologetic failure message when none do. -/
theorem claim_C8_message_finalization (cfg : Config) (env : Env) (req : ChatRequest)
    (resp : ChatResponse) (hok : (chat cfg env req).result = .ok resp) :
    resp.message ≠ "" ∧
    ∀ (content : String) (acts : List ChatAction),
      errMarkers.any (fun m => containsStr m content) = true →
      finalizeMessage (some content) acts =
        if acts.isEmpty then finalApology else appliedMsg := by
  constructor
  · have hm : msgOk (chat cfg env req) := by
      unfold chat
      split
      · intro r hr
        simp at hr
      · split
        · intro r hr
          simp at hr
        · split
          · next loc hloc =>
            intro r hr
            simp only [Except.ok.injEq] at hr
            subst hr
            exact tryLocalAction_msg_ne _ req.map_state loc hloc
          · unfold chatRemote
            try dsimp only
            split
            · simp only [stCreate]
              try dsimp only
              rcases hc : env.creates 0 with e | t <;> simp only [hc] <;> try dsimp only
              · exact errTrace_msgOk _ _
              · exact phaseAdd_msgOk env req _ _
            · exact phaseAdd_msgOk env req _ _
    exact hm resp hok
  · intro content acts hmark
    simp only [finalizeMessage, Option.getD, hmark, if_true]
    cases acts with
    | nil => simp [strTrim_empty]
    | cons a l => simp [strTrim_empty]

/-- Witness for C8 on a normal remote turn. -/
theorem claim_C8_message_finalization_witness :
    (chat cfgW envW reqC5).result = .ok { message := "ok", thread_id := "TH", actions := [] } ∧
    (({ message := "ok", thread_id := "TH", actions := [] } : ChatResponse).message ≠ "" ∧
      ∀ (content : String) (acts : List ChatAction),
        errMarkers.any (fun m => containsStr m content) = true →
        finalizeMessage (some content) acts =
          if acts.isEmpty then finalApology else appliedMsg) :=
  ⟨by decide,
    claim_C8_message_finalization cfgW envW reqC5
      { message := "ok", thread_id := "TH", actions := [] } (by decide)⟩

/-! ### Claim C7 -/

theorem anyCov_append (l1 l2 : List ChatAction) :
    anyCov (l1 ++ l2) = (anyCov l1 || anyCov l2) := by simp [anyCov]

theorem anyBld_append (l1 l2 : List ChatAction) :
    anyBld (l1 ++ l2) = (anyBld l1 || anyBld l2) := by simp [anyBld]

theorem hasShowB_append (l1 l2 : List ChatAction) :
    hasShowB (l1 ++ l2) = (hasShowB l1 || hasShowB l2) := by simp [hasShowB]

theorem hasFiltB_append (l1 l2 : List ChatAction) :
    hasFiltB (l1 ++ l2) = (hasFiltB l1 || hasFiltB l2) := by simp [hasFiltB]

theorem anyCov_dedupe (l : List ChatAction) : anyCov (dedupeActions l) = anyCov l :=
  any_dedupeActions _ l

theorem anyBld_dedupe (l : List ChatAction) : anyBld (dedupeActions l) = anyBld l :=
  any_dedupeActions _ l

theorem hasShowB_dedupe (l : List ChatAction) : hasShowB (dedupeActions l) = hasShowB l :=
  any_dedupeActions _ l

theorem hasFiltB_dedupe (l : List ChatAction) : hasFiltB (dedupeActions l) = hasFiltB l :=
  any_dedupeActions _ l

/-- Everything the augmenter injects is an `apply_filters` action. -/
theorem injected_no_show (m : List Char) (acts : List ChatAction) :
    hasShowB (injected m acts) = false := by
  unfold injected
  rw [hasShowB_append, hasShowB_append]
  rcases covCaptureAug m with _ | c <;> rcases bldCaptureAug m with _ | d <;>
    simp [hasShowB, covLocalAct, bldLocalAct, actAllFalse, actEligTrue] <;>
    split_ifs <;>
    simp [hasShowB, covLocalAct, bldLocalAct, actAllFalse, actEligTrue]

/-- After one augmentation pass, a matched coverage pattern is accounted for. -/
theorem anyCov_augment (m : List Char) (acts : List ChatAction) (c : List Char)
    (hc : covCaptureAug m = some c) : anyCov (augmentActions m acts) = true := by
  unfold augmentActions
  rw [anyCov_append]
  cases hac : anyCov acts with
  | true => simp
  | false =>
    have h1 : anyCov (injected m acts) = true := by
      unfold injected
      rw [hc, hac]
      rw [anyCov_append, anyCov_append]
      simp [anyCov, covLocalAct]
    simp [h1]

theorem anyBld_augment (m : List Char) (acts : List ChatAction) (d : List Char)
    (hd : bldCaptureAug m = some d) : anyBld (augmentActions m acts) = true := by
  unfold augmentActions
  rw [anyBld_append]
  cases hab : anyBld acts with
  | true => simp
  | false =>
    have h1 : anyBld (injected m acts) = true := by
      unfold injected
      rw [hd, hab]
      rw [anyBld_append, anyBld_append]
      simp [anyBld, bldLocalAct]
    simp [h1]

/-- A deduplicated list that already accounts for every injection trigger is a
fixed point of augmentation-plus-deduplication. -/
theorem augment_dedup_fixed (m : List Char) (D : List ChatAction)
    (hidem : dedupeActions D = D)
    (hcov : ∀ c, covCaptureAug m = some c → anyCov D = true)
    (hbld : ∀ d, bldCaptureAug m = some d → anyBld D = true)
    (hthird : (wantsShowAll m = true ∧ actAllFalse ∈ D) ∨
      (wantsShowAll m = false ∧ (hasShowB D && !hasFiltB D && wantsEligOnly m) = false)) :
    dedupeActions (augmentActions m D) = D := by
  have h1 : (match covCaptureAug m with
      | some c => if anyCov D then [] else [covLocalAct (clampCov (parseDec c))]
      | none => ([] : List ChatAction)) = [] := by
    rcases hc : covCaptureAug m with _ | c
    · rfl
    · simp [hcov c hc]
  have h2 : (match bldCaptureAug m with
      | some d => if anyBld D then [] else [bldLocalAct (clampBld (digitsToNat d))]
      | none => ([] : List ChatAction)) = [] := by
    rcases hd : bldCaptureAug m with _ | d
    · rfl
    · simp [hbld d hd]
  have hinj : injected m D = [] ∨ (injected m D = [actAllFalse] ∧ actAllFalse ∈ D) := by
    unfold injected
    rw [h1, h2]
    rcases hthird with ⟨hall, hmem⟩ | ⟨hall, hg⟩
    · right
      simp [hall, hmem]
    · left
      simp [hall, hg]
  rcases hinj with h | ⟨h, hmem⟩
  · unfold augmentActions
    rw [h, List.append_nil]
    exact hidem
  · unfold augmentActions
    rw [h, dedupeActions_append_last hmem]
    exact hidem

/-- Claim C7: for every utterance, applying the Action Augmenter followed by
deduplication twice yields the same action list as applying it once. -/
theorem claim_C7_augment_dedup_idempotent (m : List Char) (acts : List ChatAction) :
    dedupeActions (augmentActions m (dedupeActions (augmentActions m acts))) =
      dedupeActions (augmentActions m acts) := by
  apply augment_dedup_fixed
  · exact dedupeActions_idem _
  · intro c hc
    rw [anyCov_dedupe]
    exact anyCov_augment m acts c hc
  · intro d hd
    rw [anyBld_dedupe]
    exact anyBld_augment m acts d hd
  · by_cases hall : wantsShowAll m = true
    · left
      refine ⟨hall, ?_⟩
      refine dedupeActions_mem.mpr (List.mem_append_right _ ?_)
      unfold injected
      simp [hall]
    · right
      refine ⟨by simpa using hall, ?_⟩
      by_cases hg : (hasShowB acts && !hasFiltB acts && wantsEligOnly m) = true
      · have hmem : actEligTrue ∈ dedupeActions (augmentActions m acts) := by
          refine dedupeActions_mem.mpr (List.mem_append_right _ ?_)
          unfold injected
          have hall2 : wantsShowAll m = false := by simpa using hall
          simp [hall2, hg]
        have hf : hasFiltB (dedupeActions (augmentActions m acts)) = true :=
          List.any_eq_true.mpr ⟨actEligTrue, hmem, by decide⟩
        simp [hf]
      · have hshow : hasShowB (dedupeActions (augmentActions m acts)) = hasShowB acts := by
          rw [hasShowB_dedupe]
          unfold augmentActions
          rw [hasShowB_append, injected_no_show, Bool.or_false]
        cases hs : hasShowB acts with
        | false => simp [hshow, hs]
        | true =>
          cases hfa : hasFiltB acts with
          | true =>
            have hf : hasFiltB (dedupeActions (augmentActions m acts)) = true := by
              rw [hasFiltB_dedupe]
              unfold augmentActions
              rw [hasFiltB_append, hfa]
              simp
            simp [hf]
          | false =>
            cases he : wantsEligOnly m with
            | false => simp [he]
            | true => exact absurd (by simp [hs, hfa, he]) hg
